import Mathlib

/-!
Verification of the mongodb-dumper backup pipeline.

This file gives a shallow embedding of the pipeline's pure logic:
configuration validation (`DumperConfig.Validate`, `NewDumper`), the
mongodump argument construction and its URI heuristic (`createDumpArgs`,
`uriContainsDB`), the stderr-embedding failure message of `CreateDump`,
the progress-throttling logic of the dump stdout parser and of the S3
upload `progressReader`, the backup-name/S3-key generation
(`GenerateBackupFilename`), the orchestrator control flow of
`Dumper.Dump` (compression-ratio reporting and cleanup), the zip
archiving walk (`compressFile`), the `.bson` statistics walk, and the
scheduling loop of `main`.  External effects (subprocess execution,
filesystem, network, clock) are modelled by explicit outcome
parameters; machine integers are modelled as `Nat` (sizes and counts in
the source are non-negative and far from overflow).
-/

/-- Go `strings.Contains(s, substr)`: substring occurrence test. -/
def goContains (s sub : String) : Bool :=
  decide (sub.data <:+: s.data)

/-- Go `strings.Split(s, sep)` for a non-empty separator: splits around
each instance of `sep`; always returns at least one element. -/
def goSplit (s sep : String) : List String :=
  s.splitOn sep

/-- `DumperConfig` from the source (the `*zap.Logger` field carries no
data relevant to the embedded logic and is omitted). -/
structure DumperConfig where
  MongoURI : String
  Database : String
  Environment : String
  S3Endpoint : String
  S3Region : String
  S3Bucket : String
  S3AccessKey : String
  S3SecretKey : String
  TempDir : String
deriving DecidableEq

/-- `DumperConfig.GetEnvironment`: the environment or a default. -/
def DumperConfig.GetEnvironment (c : DumperConfig) (defaultValue : String) : String :=
  if c.Environment = "" then defaultValue else c.Environment

/-- `DumperConfig.GetDatabase`: the database name or a default. -/
def DumperConfig.GetDatabase (c : DumperConfig) (defaultValue : String) : String :=
  if c.Database = "" then defaultValue else c.Database

/-- Facts about the process environment at construction time, outside
the configuration struct: whether `exec.LookPath ("mongodump")`
succeeds, whether the S3 client construction succeeds, and whether
`os.MkdirAll` on the temp directory succeeds. -/
structure SystemEnv where
  mongodumpOnPath : Bool
  s3ClientOk : Bool
  mkdirTempOk : Bool
deriving DecidableEq

/-- `DumperConfig.Validate`: checks the MongoDB URI, the S3 credential
set, and resolvability of the `mongodump` executable, in that order. -/
def DumperConfig.Validate (c : DumperConfig) (mongodumpOnPath : Bool) : Except String Unit :=
  if c.MongoURI = "" then .error "MongoDB URI is required"
  else if c.S3Endpoint = "" || c.S3Bucket = "" || c.S3AccessKey = "" || c.S3SecretKey = "" then
    .error "S3 configuration is incomplete"
  else if !mongodumpOnPath then .error "mongodump executable not found in PATH"
  else .ok ()

/-- The constructed dumper (only the configuration is data). -/
structure Dumper where
  config : DumperConfig
deriving DecidableEq

/-- `NewDumper`: validates the configuration, then builds the S3 client,
the MongoDB dumper (which re-checks `mongodump` on the path), and the
temp directory; any failure is returned at construction time. -/
def NewDumper (cfg : DumperConfig) (env : SystemEnv) : Except String Dumper :=
  match cfg.Validate env.mongodumpOnPath with
  | .error e => .error e
  | .ok _ =>
    if !env.s3ClientOk then .error "failed to create S3 client"
    else if !env.mongodumpOnPath then
      .error "failed to create MongoDB dumper: mongodump executable not found in PATH"
    else if cfg.TempDir != "" && !env.mkdirTempOk then
      .error "failed to create temp directory"
    else .ok { config := cfg }

/-- `CreateDump`'s heuristic for a database name already embedded in the
connection string: the URI contains a `?` and a `/` and splitting the
part before the first `?` on `/` yields more than 3 pieces. -/
def uriContainsDB (uri : String) : Bool :=
  goContains uri "?" && goContains uri "/" &&
    decide ((goSplit ((goSplit uri "?").headD "") "/").length > 3)

/-- The argument list `CreateDump` passes to `mongodump`: base flags,
then `--db` only when a database is configured and the URI does not
already embed one, then `--verbose`. -/
def createDumpArgs (cfg : DumperConfig) (outputPath : String) : List String :=
  let args := ["--uri", cfg.MongoURI, "--out", outputPath]
  let args := if cfg.Database != "" && !uriContainsDB cfg.MongoURI then
    args ++ ["--db", cfg.Database] else args
  args ++ ["--verbose"]

/-- The stderr capture goroutine: each scanned line is appended to the
buffer followed by a newline. -/
def capturedOutput (lines : List String) : String :=
  lines.foldl (fun acc line => acc ++ line ++ "\n") ""

/-- The error `CreateDump` returns when the subprocess exits non-zero:
`fmt.Errorf ("mongodump failed: %w - stderr: %s", err, stderrBuf)`. -/
def createDumpFailureMessage (waitErr : String) (stderrLines : List String) : String :=
  "mongodump failed: " ++ waitErr ++ " - stderr: " ++ capturedOutput stderrLines

/-- The stdout-parsing loop of `CreateDump`, restricted to the lines
that matched the percentage regex: given the last logged percentage, a
value is logged when it is at least 10 above the last logged one or
equals 100, and then becomes the new last logged value.  Returns the
sequence of logged percentages. -/
def dumpLoggedProgress (lastPercentage : Nat) : List Nat → List Nat
  | [] => []
  | pct :: rest =>
    if lastPercentage + 10 ≤ pct ∨ pct = 100 then
      pct :: dumpLoggedProgress pct rest
    else
      dumpLoggedProgress lastPercentage rest

/-- The mutable state of the upload `progressReader`. -/
structure ProgressReaderState where
  totalSize : Nat
  bytesRead : Nat
  lastLoggedPct : Nat
deriving DecidableEq

/-- One `progressReader.Read` call that returned `n` bytes: when
`n > 0` the byte count advances, the percentage is recomputed, and it
is logged under the same 10-point/100 threshold.  (The source computes
the percentage with exact 64-bit values well inside the float64 range;
it is modelled as `bytesRead * 100 / totalSize` with truncation.) -/
def progressRead (st : ProgressReaderState) (n : Nat) : ProgressReaderState × List Nat :=
  if n = 0 then (st, [])
  else
    let bytesRead := st.bytesRead + n
    let pct := bytesRead * 100 / st.totalSize
    if st.lastLoggedPct + 10 ≤ pct ∨ pct = 100 then
      ({ st with bytesRead := bytesRead, lastLoggedPct := pct }, [pct])
    else
      ({ st with bytesRead := bytesRead }, [])

/-- The logged percentages over a whole sequence of reads. -/
def uploadLoggedProgress (st : ProgressReaderState) : List Nat → List Nat
  | [] => []
  | n :: ns =>
    let step := progressRead st n
    step.2 ++ uploadLoggedProgress step.1 ns

/-- The relation between one logged progress value and the next (with 0
as the virtual predecessor of the first): the new value is logged only
because it is at least 10 points above the last or equals 100, it never
decreases, and it stays within the 0–100 range. -/
def progressLogOk (a b : Nat) : Prop :=
  a ≤ b ∧ b ≤ 100 ∧ (a + 10 ≤ b ∨ b = 100)

/-- A wall-clock date-time as the Go `time` package formats it. -/
structure DateTime where
  year : Nat
  month : Nat
  day : Nat
  hour : Nat
  minute : Nat
  second : Nat
deriving DecidableEq

/-- Field ranges under which the fixed-width formatting below agrees
exactly with Go's `time.Format` (Go always has month, day, hour,
minute, second below 100, and years of interest below 10000). -/
def DateTime.Valid (t : DateTime) : Prop :=
  t.year < 10000 ∧ t.month < 100 ∧ t.day < 100 ∧
    t.hour < 100 ∧ t.minute < 100 ∧ t.second < 100

instance (t : DateTime) : Decidable t.Valid := by
  unfold DateTime.Valid
  infer_instance

/-- Two-digit zero-padded decimal (Go layout fields `01`, `02`, `15`,
`04`, `05`). -/
def pad2 (n : Nat) : String :=
  ⟨[Nat.digitChar (n / 10 % 10), Nat.digitChar (n % 10)]⟩

/-- Four-digit zero-padded decimal (Go layout field `2006`). -/
def pad4 (n : Nat) : String :=
  ⟨[Nat.digitChar (n / 1000 % 10), Nat.digitChar (n / 100 % 10),
    Nat.digitChar (n / 10 % 10), Nat.digitChar (n % 10)]⟩

/-- Go layout `"2006-01-02T15-04-05Z"` used for the backup timestamp. -/
def formatTimestamp (t : DateTime) : String :=
  pad4 t.year ++ "-" ++ pad2 t.month ++ "-" ++ pad2 t.day ++ "T" ++
    pad2 t.hour ++ "-" ++ pad2 t.minute ++ "-" ++ pad2 t.second ++ "Z"

/-- Go layout `"2006-01-02"` used for the key's date segment. -/
def formatDate (t : DateTime) : String :=
  pad4 t.year ++ "-" ++ pad2 t.month ++ "-" ++ pad2 t.day

/-- The two clock readings taken inside `GenerateBackupFilename`:
`time.Now().UTC()` for the timestamp and a second `time.Now()` (in the
process's local zone) for the date segment of the S3 key. -/
structure Clock where
  utc : DateTime
  localTime : DateTime
deriving DecidableEq

/-- `GenerateBackupFilename`: returns `(backupDirName, localBackupPath,
s3Key)`.  The directory name is `{db}-{env}-{timestamp}` with the UTC
timestamp; the S3 key prefix is `{env}/{date}/{dirName}` where the date
segment is formatted from the local-zone clock reading.
(`filepath.Join` on a clean temp dir is path concatenation.) -/
def GenerateBackupFilename (cfg : DumperConfig) (now : Clock) : String × String × String :=
  let timestamp := formatTimestamp now.utc
  let environment := cfg.GetEnvironment "default"
  let dbName := cfg.GetDatabase "all-databases"
  let backupDirName := dbName ++ "-" ++ environment ++ "-" ++ timestamp
  let localBackupPath := cfg.TempDir ++ "/" ++ backupDirName
  let s3Key := environment ++ "/" ++ formatDate now.localTime ++ "/" ++ backupDirName
  (backupDirName, localBackupPath, s3Key)

/-- The remote object key `Dumper.Dump` uploads to: the generated key
prefix with `".zip"` appended. -/
def dumpS3Key (cfg : DumperConfig) (now : Clock) : String :=
  (GenerateBackupFilename cfg now).2.2 ++ ".zip"

/-- The remote key as the specification describes it:
`{environment}/{YYYY-MM-DD}/{database}-{environment}-{timestamp}.zip`
with the date segment taken from the timestamp itself. -/
def specClaimedKey (environment database : String) (t : DateTime) : String :=
  environment ++ "/" ++ formatDate t ++ "/" ++ database ++ "-" ++
    environment ++ "-" ++ formatTimestamp t ++ ".zip"

/-- Outcomes of the external effects one `Dumper.Dump` run performs, in
program order: the `CreateDump` result, the size total of the `.bson`
statistics walk, the `compressFile` result, the `os.Stat` of the
compressed file (`some size` when `err == nil`), the `UploadFile`
result, and the two cleanup removals. -/
structure RunEnv where
  dumpErr : Option String
  originalSize : Nat
  compressErr : Option String
  statSize : Option Nat
  uploadErr : Option String
  removeDirErr : Option String
  removeFileErr : Option String
deriving DecidableEq

/-- The observable actions of one `Dumper.Dump` run: whether (and with
which operands) the compression-ratio division was executed, whether
each of the two removals was attempted, and how many cleanup warnings
were logged. -/
structure RunTrace where
  ratioDivision : Option (Nat × Nat)
  removeDirAttempted : Bool
  removeFileAttempted : Bool
  cleanupWarnings : Nat
deriving DecidableEq

/-- `Dumper.Dump` control flow: dump, then compress, then (when the
`os.Stat` succeeds) the compression-ratio computation
`float64(originalSize) / float64(compressedSize)`, then upload, then
cleanup.  Each failing stage returns its wrapped error immediately;
cleanup removal failures are logged as warnings and do not change the
result. -/
def dumpRun (env : RunEnv) : Except String Unit × RunTrace :=
  let tr0 : RunTrace :=
    { ratioDivision := none, removeDirAttempted := false,
      removeFileAttempted := false, cleanupWarnings := 0 }
  match env.dumpErr with
  | some e => (.error ("failed to create MongoDB dump: " ++ e), tr0)
  | none =>
    match env.compressErr with
    | some e => (.error ("failed to compress dump directory: " ++ e), tr0)
    | none =>
      let tr1 := { tr0 with
        ratioDivision := env.statSize.map fun size => (env.originalSize, size) }
      match env.uploadErr with
      | some e => (.error ("failed to upload dump to S3: " ++ e), tr1)
      | none =>
        let warnings := (if env.removeDirErr.isSome then 1 else 0) +
          (if env.removeFileErr.isSome then 1 else 0)
        (.ok (),
          { tr1 with
            removeDirAttempted := true
            removeFileAttempted := true
            cleanupWarnings := warnings })

/-- One node `filepath.Walk` visits inside the dump directory, given by
its path relative to the walk root; for a regular file, `content` holds
its bytes (so its size is `content.length`). -/
structure FileNode where
  relPath : String
  isDir : Bool
  content : List Nat
deriving DecidableEq

/-- The `zip.Deflate` method constant (8). -/
def zipDeflate : Nat := 8

/-- One entry of the produced zip container: its name, its compression
method, and the bytes the archive stores for it (written through the
Deflate codec, which is lossless, so reading the entry back inflates to
exactly these bytes). -/
structure ZipEntry where
  name : String
  method : Nat
  stored : List Nat
deriving DecidableEq

/-- `compressFile`: walks the tree, skips directories, and writes one
entry per regular file, named by its path relative to the source
directory, with method `zip.Deflate`, copying the file bytes through a
32 KB buffer (content-preserving). -/
def compressFile : List FileNode → List ZipEntry
  | [] => []
  | f :: rest =>
    if f.isDir then compressFile rest
    else { name := f.relPath, method := zipDeflate, stored := f.content } ::
      compressFile rest

/-- Reading one entry back from the container (the zip reader inflates
the Deflate stream; Deflate is lossless). -/
def extractEntry (e : ZipEntry) : List Nat := e.stored

/-- `filepath.Ext`, scanning the path backwards: stops at the path
separator, returns from the final dot onwards, or empty. `acc` holds
the characters already scanned (in forward order). -/
def goExtRev (acc : List Char) : List Char → List Char
  | [] => []
  | c :: rest =>
    if c = '/' then []
    else if c = '.' then c :: acc
    else goExtRev (c :: acc) rest

/-- Go `filepath.Ext (p)`: the suffix beginning at the final dot in the
final path element, empty when there is no dot. -/
def goExt (p : String) : String :=
  ⟨goExtRev [] p.data.reverse⟩

/-- The statistics walk of `CreateDump` and `Dumper.Dump`: counts the
regular files whose `filepath.Ext` is `".bson"` and sums their sizes. -/
def dumpStats : List FileNode → Nat × Nat
  | [] => (0, 0)
  | f :: rest =>
    let acc := dumpStats rest
    if !f.isDir && goExt f.relPath == ".bson" then
      (acc.1 + 1, acc.2 + f.content.length)
    else acc

/-- An event the scheduler's `select` can observe: a ticker tick or the
context's cancellation. -/
inductive SchedEvent
  | tick
  | cancel
deriving DecidableEq

/-- The two scheduling flags of `main`: the interval (0 when unset) and
the one-time flag. -/
structure MainFlags where
  interval : Nat
  oneTime : Bool
deriving DecidableEq

/-- `main`'s mode selection: `isOneTime := *oneTime || *interval == 0`. -/
def isOneTime (fl : MainFlags) : Bool :=
  fl.oneTime || fl.interval == 0

/-- The periodic `for`/`select` loop of `main`: on a tick the pipeline
runs (an error is logged and the loop continues); on cancellation the
loop returns.  `runErr i` is the outcome of the `i`-th run of the
process; the trace lists each executed run with its outcome. -/
def periodicLoopTrace (runErr : Nat → Option String) (runIdx : Nat) :
    List SchedEvent → List (Nat × Option String)
  | [] => []
  | SchedEvent.cancel :: _ => []
  | SchedEvent.tick :: rest =>
    (runIdx, runErr runIdx) :: periodicLoopTrace runErr (runIdx + 1) rest

/-- The scheduler of `main`: in one-time mode a single run; in periodic
mode an immediate initial run (errors logged, not fatal) followed by
the tick loop. -/
def schedulerTrace (fl : MainFlags) (runErr : Nat → Option String)
    (events : List SchedEvent) : List (Nat × Option String) :=
  if isOneTime fl then [(0, runErr 0)]
  else (0, runErr 0) :: periodicLoopTrace runErr 1 events

/-- The number of ticks the loop serves before the first cancellation. -/
def ticksBeforeCancel (events : List SchedEvent) : Nat :=
  (events.takeWhile fun e => e == SchedEvent.tick).length

/-! ### Helper lemmas -/

theorem compressFile_eq (tree : List FileNode) :
    compressFile tree = (tree.filter fun f => !f.isDir).map
      fun f => { name := f.relPath, method := zipDeflate, stored := f.content } := by
  induction tree with
  | nil => rfl
  | cons f rest ih =>
    cases h : f.isDir <;> simp [compressFile, h, ih, List.filter_cons]

theorem newline_data : "\n".data = ['\n'] := rfl

theorem capturedOutput_data (ls : List String) (acc : String) :
    (ls.foldl (fun a line => a ++ line ++ "\n") acc).data =
      acc.data ++ (ls.map fun l => l.data ++ ['\n']).flatten := by
  induction ls generalizing acc with
  | nil => simp
  | cons l ls ih =>
    simp [List.foldl_cons, ih, String.data_append, newline_data, List.append_assoc]

/-! ### Claims C1, C3, C4 -/

/-- Claim C1, counterexample: a run whose Upload stage fails returns the
wrapped upload error without attempting either local-artifact removal,
so cleanup is not attempted on every exit path that reached the Archive
or Upload stage. -/
theorem c1_counterexample :
    (dumpRun ⟨none, 30000, none, some 9000, some "connection reset by peer", none, none⟩).1 =
      Except.error "failed to upload dump to S3: connection reset by peer" ∧
    (dumpRun ⟨none, 30000, none, some 9000, some "connection reset by peer",
      none, none⟩).2.removeDirAttempted = false ∧
    (dumpRun ⟨none, 30000, none, some 9000, some "connection reset by peer",
      none, none⟩).2.removeFileAttempted = false :=
  ⟨rfl, rfl, rfl⟩

/-- Claim C1 (amended): `Dumper.Dump` attempts the removal of the local
dump directory and of the compressed file exactly when the Dump,
Archive and Upload stages all succeeded (there is no deferred cleanup:
a stage failure returns before the cleanup step); when cleanup does
run, removal failures are logged as warnings and do not change the
run's result. -/
theorem c1_cleanup_only_on_success (env : RunEnv) :
    ((dumpRun env).2.removeDirAttempted =
      (env.dumpErr.isNone && env.compressErr.isNone && env.uploadErr.isNone)) ∧
    ((dumpRun env).2.removeFileAttempted =
      (env.dumpErr.isNone && env.compressErr.isNone && env.uploadErr.isNone)) ∧
    ((dumpRun env).1.isOk =
      (env.dumpErr.isNone && env.compressErr.isNone && env.uploadErr.isNone)) ∧
    ((dumpRun env).1 =
      (dumpRun { env with removeDirErr := none, removeFileErr := none }).1) := by
  obtain ⟨d, o, c, st, u, rd, rf⟩ := env
  cases d <;> cases c <;> cases u <;> simp [dumpRun, Except.isOk, Except.toBool]

/-- Claim C3, counterexample: when the post-compression `os.Stat`
succeeds and reports size 0, the orchestrator still executes the
compression-ratio division, with divisor 0. -/
theorem c3_counterexample :
    (dumpRun ⟨none, 30000, none, some 0, none, none, none⟩).2.ratioDivision =
      some (30000, 0) :=
  rfl

/-- Claim C3 (amended): the compression-ratio division is executed
exactly when the Dump and Archive stages succeeded and the
post-compression `os.Stat` succeeded (`err == nil`); the guard is stat
success only, with no positivity check of the reported size, so a
zero-size compressed file still leads to the division being performed
(a float division by zero in Go). -/
theorem c3_ratio_division_guard (env : RunEnv) :
    (dumpRun env).2.ratioDivision =
      if env.dumpErr = none ∧ env.compressErr = none then
        env.statSize.map fun size => (env.originalSize, size)
      else none := by
  obtain ⟨d, o, c, st, u, rd, rf⟩ := env
  cases d <;> cases c <;> cases u <;> simp [dumpRun]

/-- Claim C4: over any walked tree, `compressFile` produces one entry
per regular file (exactly N entries for N regular files), the entry
names are the files' paths relative to the source directory, every
entry uses the Deflate method, and reading each entry back yields the
original file bytes. -/
theorem c4_archive_entries_roundtrip (tree : List FileNode) :
    (compressFile tree).length = (tree.filter fun f => !f.isDir).length ∧
    (compressFile tree).map ZipEntry.name =
      (tree.filter fun f => !f.isDir).map FileNode.relPath ∧
    (compressFile tree).map ZipEntry.method =
      (tree.filter fun f => !f.isDir).map (fun _ => zipDeflate) ∧
    (compressFile tree).map extractEntry =
      (tree.filter fun f => !f.isDir).map FileNode.content := by
  refine ⟨?_, ?_, ?_, ?_⟩ <;>
    simp [compressFile_eq, List.map_map, Function.comp_def, extractEntry,
      List.map_const']

/-! ### Claims C8, C6, C7 -/

theorem validate_ok_iff (cfg : DumperConfig) (onPath : Bool) :
    (∃ u, cfg.Validate onPath = Except.ok u) ↔
      (cfg.MongoURI ≠ "" ∧ cfg.S3Endpoint ≠ "" ∧ cfg.S3Bucket ≠ "" ∧
        cfg.S3AccessKey ≠ "" ∧ cfg.S3SecretKey ≠ "" ∧ onPath = true) := by
  unfold DumperConfig.Validate
  constructor
  · rintro ⟨u, hv⟩
    by_cases h1 : cfg.MongoURI = ""
    · rw [if_pos h1] at hv; exact Except.noConfusion hv
    rw [if_neg h1] at hv
    by_cases h2 : cfg.S3Endpoint = ""
    · rw [if_pos (by simp [h2])] at hv; exact Except.noConfusion hv
    by_cases h3 : cfg.S3Bucket = ""
    · rw [if_pos (by simp [h3])] at hv; exact Except.noConfusion hv
    by_cases h4 : cfg.S3AccessKey = ""
    · rw [if_pos (by simp [h4])] at hv; exact Except.noConfusion hv
    by_cases h5 : cfg.S3SecretKey = ""
    · rw [if_pos (by simp [h5])] at hv; exact Except.noConfusion hv
    rw [if_neg (by simp [h2, h3, h4, h5])] at hv
    cases hp : onPath with
    | false => rw [if_pos (by simp [hp])] at hv; exact Except.noConfusion hv
    | true => exact ⟨h1, h2, h3, h4, h5, rfl⟩
  · rintro ⟨h1, h2, h3, h4, h5, h6⟩
    rw [if_neg h1, if_neg (by simp [h2, h3, h4, h5]), if_neg (by simp [h6])]
    exact ⟨(), rfl⟩

/-- Claim C8: a missing connection string, incomplete storage
credentials (any of endpoint, bucket, access key, secret key empty), or
an unresolvable dump utility makes `NewDumper` (through
`DumperConfig.Validate`) return an error, and conversely a successful
construction certifies that none of these configuration errors is
present, so none is deferred to run time. -/
theorem c8_construction_time_validation (cfg : DumperConfig) (env : SystemEnv) :
    ((∃ d, NewDumper cfg env = Except.ok d) →
      cfg.MongoURI ≠ "" ∧ cfg.S3Endpoint ≠ "" ∧ cfg.S3Bucket ≠ "" ∧
        cfg.S3AccessKey ≠ "" ∧ cfg.S3SecretKey ≠ "" ∧ env.mongodumpOnPath = true) ∧
    ((cfg.MongoURI = "" ∨ cfg.S3Endpoint = "" ∨ cfg.S3Bucket = "" ∨
        cfg.S3AccessKey = "" ∨ cfg.S3SecretKey = "" ∨ env.mongodumpOnPath = false) →
      ∃ e, NewDumper cfg env = Except.error e) := by
  constructor
  · rintro ⟨d, hd⟩
    apply (validate_ok_iff cfg env.mongodumpOnPath).1
    unfold NewDumper at hd
    cases hv : cfg.Validate env.mongodumpOnPath with
    | error e => rw [hv] at hd; simp at hd
    | ok u => exact ⟨u, rfl⟩
  · intro h
    have hval : ∃ e, cfg.Validate env.mongodumpOnPath = Except.error e := by
      cases hv : cfg.Validate env.mongodumpOnPath with
      | error e => exact ⟨e, rfl⟩
      | ok u =>
        exfalso
        have hok := (validate_ok_iff cfg env.mongodumpOnPath).1 ⟨u, hv⟩
        rcases h with h | h | h | h | h | h
        · exact hok.1 h
        · exact hok.2.1 h
        · exact hok.2.2.1 h
        · exact hok.2.2.2.1 h
        · exact hok.2.2.2.2.1 h
        · rw [hok.2.2.2.2.2] at h; exact Bool.noConfusion h
    obtain ⟨e, he⟩ := hval
    exact ⟨e, by unfold NewDumper; rw [he]⟩

/-- Claim C8, witness: the empty connection string is rejected at
construction time. -/
theorem c8_witness :
    ∃ e, NewDumper ⟨"", "orders", "staging", "ep", "region", "bkt", "ak", "sk", "/tmp"⟩
      ⟨true, true, true⟩ = Except.error e :=
  (c8_construction_time_validation _ _).2 (Or.inl rfl)

/-- Claim C6: the `--db` flag appears in the mongodump invocation
exactly when a target database is configured (non-empty) and the
connection-string heuristic does not detect an embedded database name
(the two auxiliary hypotheses rule out the degenerate configurations
whose URI or output path is the literal string `--db`). -/
theorem c6_db_flag_iff (cfg : DumperConfig) (outputPath : String)
    (huri : cfg.MongoURI ≠ "--db") (hout : outputPath ≠ "--db") :
    "--db" ∈ createDumpArgs cfg outputPath ↔
      cfg.Database ≠ "" ∧ uriContainsDB cfg.MongoURI = false := by
  unfold createDumpArgs
  by_cases hdb : cfg.Database = ""
  · have hcond : (cfg.Database != "" && !uriContainsDB cfg.MongoURI) = false := by
      simp [hdb]
    simp [hcond, hdb, List.mem_append, Ne.symm huri, Ne.symm hout]
  · cases hc : uriContainsDB cfg.MongoURI
    · have hcond : (cfg.Database != "" && !uriContainsDB cfg.MongoURI) = true := by
        simp [hdb, hc]
      simp [hcond, hdb, hc, List.mem_append]
    · have hcond : (cfg.Database != "" && !uriContainsDB cfg.MongoURI) = false := by
        simp [hc]
      simp [hcond, hdb, hc, List.mem_append, Ne.symm huri, Ne.symm hout]

/-- Claim C6, witness: with database `"orders"` and a URI without an
embedded database name, the invocation carries `--db`. -/
theorem c6_witness :
    "--db" ∈ createDumpArgs
      ⟨"mongodb://host:27017", "orders", "staging", "ep", "region", "bkt", "ak", "sk", "/tmp"⟩
      "/tmp/out" :=
  (c6_db_flag_iff _ _ (by decide) (by decide)).mpr ⟨by decide, by decide⟩

/-- Claim C7: the error `CreateDump` returns on a non-zero subprocess
exit contains the captured stderr buffer verbatim, and in particular
every captured stderr line occurs in the error message. -/
theorem c7_error_embeds_stderr (waitErr : String) (stderrLines : List String) :
    (capturedOutput stderrLines).data <:+:
      (createDumpFailureMessage waitErr stderrLines).data ∧
    ∀ line ∈ stderrLines,
      line.data <:+: (createDumpFailureMessage waitErr stderrLines).data := by
  have hcap : (capturedOutput stderrLines).data <:+:
      (createDumpFailureMessage waitErr stderrLines).data := by
    refine ⟨("mongodump failed: " ++ waitErr ++ " - stderr: ").data, [], ?_⟩
    simp [createDumpFailureMessage, String.data_append]
  refine ⟨hcap, fun line hmem => ?_⟩
  have hflat : (capturedOutput stderrLines).data =
      (stderrLines.map fun l => l.data ++ ['\n']).flatten := by
    simpa using capturedOutput_data stderrLines ""
  have hline : line.data <:+: (capturedOutput stderrLines).data := by
    rw [hflat]
    exact List.IsInfix.trans ⟨[], ['\n'], by simp⟩
      (List.infix_of_mem_flatten (List.mem_map_of_mem _ hmem))
  exact hline.trans hcap

/-- Claim C7, witness: stderr `"authentication failed"` appears in the
returned error message. -/
theorem c7_witness :
    "authentication failed".data <:+:
      (createDumpFailureMessage "exit status 1" ["authentication failed"]).data :=
  (c7_error_embeds_stderr "exit status 1" ["authentication failed"]).2
    "authentication failed" (by simp)

/-! ### Claims C9, C5 -/

theorem periodicLoopTrace_eq (runErr : Nat → Option String) (events : List SchedEvent) :
    ∀ k, periodicLoopTrace runErr k events =
      (List.range' k (ticksBeforeCancel events)).map fun i => (i, runErr i) := by
  induction events with
  | nil => intro k; simp [periodicLoopTrace, ticksBeforeCancel]
  | cons e es ih =>
    intro k
    cases e with
    | cancel => simp [periodicLoopTrace, ticksBeforeCancel, List.takeWhile_cons]
    | tick =>
      have ht : ticksBeforeCancel (SchedEvent.tick :: es) = ticksBeforeCancel es + 1 := by
        simp [ticksBeforeCancel, List.takeWhile_cons]
      rw [periodicLoopTrace, ht, List.range'_succ, List.map_cons, ih (k + 1)]

/-- Claim C9: in periodic mode (non-zero interval and one-time flag
unset) the scheduler executes the pipeline once immediately and then
once per tick until the first cancellation; the executed-run trace is
exactly run 0 followed by one run per pre-cancellation tick, with each
run's outcome attached, so a failing run never shortens the trace. -/
theorem c9_periodic_schedule (fl : MainFlags) (runErr : Nat → Option String)
    (events : List SchedEvent) (hone : fl.oneTime = false) (hint : fl.interval ≠ 0) :
    schedulerTrace fl runErr events =
      (List.range (1 + ticksBeforeCancel events)).map fun i => (i, runErr i) := by
  have hmode : isOneTime fl = false := by
    simp [isOneTime, hone, hint]
  have hrange : List.range (1 + ticksBeforeCancel events) =
      0 :: List.range' 1 (ticksBeforeCancel events) := by
    rw [Nat.add_comm, List.range_eq_range', List.range'_succ]
  rw [schedulerTrace, hmode, hrange]
  simp only [Bool.false_eq_true, if_false, List.map_cons]
  rw [periodicLoopTrace_eq runErr events 1]

/-- Claim C9, witness: interval 3600, one-time unset, first run failing,
two ticks before cancellation: three runs execute and the failure of
run 0 does not stop the loop. -/
theorem c9_witness :
    schedulerTrace ⟨3600, false⟩ (fun i => if i == 0 then some "connection refused" else none)
      [SchedEvent.tick, SchedEvent.tick, SchedEvent.cancel, SchedEvent.tick] =
      [(0, some "connection refused"), (1, none), (2, none)] :=
  (c9_periodic_schedule ⟨3600, false⟩ _ _ rfl (by decide)).trans (by decide)

theorem dumpLoggedProgress_chain (pcts : List Nat) :
    ∀ lastPercentage, lastPercentage ≤ 100 → (∀ p ∈ pcts, p ≤ 100) →
      List.Chain progressLogOk lastPercentage (dumpLoggedProgress lastPercentage pcts) := by
  induction pcts with
  | nil => intro last h1 h2; exact List.Chain.nil
  | cons p ps ih =>
    intro last hlast hall
    have hp : p ≤ 100 := hall p (List.mem_cons_self p ps)
    have htail : ∀ q ∈ ps, q ≤ 100 := fun q hq => hall q (List.mem_cons_of_mem p hq)
    rw [dumpLoggedProgress]
    by_cases hcond : last + 10 ≤ p ∨ p = 100
    · rw [if_pos hcond]
      have hle : last ≤ p := by
        rcases hcond with h | h
        · omega
        · omega
      exact List.Chain.cons ⟨hle, hp, hcond⟩ (ih p hp htail)
    · rw [if_neg hcond]
      exact ih last hlast htail

theorem uploadLoggedProgress_chain (reads : List Nat) :
    ∀ st : ProgressReaderState, st.lastLoggedPct ≤ 100 → 0 < st.totalSize →
      st.bytesRead + reads.sum ≤ st.totalSize →
      List.Chain progressLogOk st.lastLoggedPct (uploadLoggedProgress st reads) := by
  induction reads with
  | nil => intro st h1 h2 h3; exact List.Chain.nil
  | cons n ns ih =>
    intro st hlast htot hsum
    rw [uploadLoggedProgress]
    by_cases hn : n = 0
    · rw [progressRead, if_pos hn]
      simp only [List.nil_append]
      exact ih st hlast htot (by simp [hn, List.sum_cons] at hsum ⊢; omega)
    · rw [progressRead, if_neg hn]
      simp only []
      have hbytes : st.bytesRead + n ≤ st.totalSize := by
        simp [List.sum_cons] at hsum; omega
      have hpct : (st.bytesRead + n) * 100 / st.totalSize ≤ 100 := by
        calc (st.bytesRead + n) * 100 / st.totalSize
            ≤ st.totalSize * 100 / st.totalSize :=
              Nat.div_le_div_right (Nat.mul_le_mul_right 100 hbytes)
          _ = 100 := Nat.mul_div_cancel_left 100 htot
      by_cases hcond : st.lastLoggedPct + 10 ≤ (st.bytesRead + n) * 100 / st.totalSize ∨
          (st.bytesRead + n) * 100 / st.totalSize = 100
      · rw [if_pos hcond]
        have hle : st.lastLoggedPct ≤ (st.bytesRead + n) * 100 / st.totalSize := by
          rcases hcond with h | h
          · omega
          · omega
        refine List.Chain.cons ⟨hle, hpct, hcond⟩ ?_
        have hrec := ih ⟨st.totalSize, st.bytesRead + n, (st.bytesRead + n) * 100 / st.totalSize⟩
        exact hrec hpct htot (by simp [List.sum_cons] at hsum ⊢; omega)
      · rw [if_neg hcond]
        simp only [List.nil_append]
        have hrec := ih ⟨st.totalSize, st.bytesRead + n, st.lastLoggedPct⟩
        exact hrec hlast htot (by simp [List.sum_cons] at hsum ⊢; omega)

/-- Claim C5: in both the dump stdout parser and the upload
progress-reader, a percentage is logged only when it is at least 10
points above the last logged value or equals 100 (the third component
of `progressLogOk`), and the logged sequence is non-decreasing and
bounded to the 0–100 range, assuming the parsed dump percentages lie in
0–100 and the upload reads at most the file's size. -/
theorem c5_progress_throttling :
    (∀ pcts : List Nat, (∀ p ∈ pcts, p ≤ 100) →
      List.Chain progressLogOk 0 (dumpLoggedProgress 0 pcts)) ∧
    (∀ (totalSize : Nat) (reads : List Nat), 0 < totalSize → reads.sum ≤ totalSize →
      List.Chain progressLogOk 0 (uploadLoggedProgress ⟨totalSize, 0, 0⟩ reads)) := by
  constructor
  · intro pcts hall
    exact dumpLoggedProgress_chain pcts 0 (by omega) hall
  · intro totalSize reads htot hsum
    exact uploadLoggedProgress_chain reads ⟨totalSize, 0, 0⟩ (Nat.zero_le 100) htot
      (by simpa using hsum)

/-- Claim C5, witness: concrete percentage streams for both stages. -/
theorem c5_witness :
    List.Chain progressLogOk 0 (dumpLoggedProgress 0 [5, 30, 35, 100]) ∧
    List.Chain progressLogOk 0 (uploadLoggedProgress ⟨10, 0, 0⟩ [5, 5]) :=
  ⟨c5_progress_throttling.1 [5, 30, 35, 100] (by decide),
   c5_progress_throttling.2 10 [5, 5] (by decide) (by decide)⟩

/-! ### Claim C10 -/

theorem goExtRev_dot {r l : List Char} :
    ∀ acc, goExtRev acc r = '.' :: l →
      ∃ r1 r2, r = r1 ++ '.' :: r2 ∧ (∀ c ∈ r1, c ≠ '/' ∧ c ≠ '.') ∧
        l = r1.reverse ++ acc := by
  induction r with
  | nil => intro acc h; simp [goExtRev] at h
  | cons c rest ih =>
    intro acc h
    rw [goExtRev] at h
    by_cases h1 : c = '/'
    · rw [if_pos h1] at h; exact absurd h (by simp)
    rw [if_neg h1] at h
    by_cases h2 : c = '.'
    · rw [if_pos h2] at h
      obtain ⟨hc, hacc⟩ := List.cons.inj h
      subst h2
      exact ⟨[], rest, by simp, by simp, by simp [hacc]⟩
    · rw [if_neg h2] at h
      obtain ⟨r1, r2, hr, hall, hl⟩ := ih (c :: acc) h
      refine ⟨c :: r1, r2, by simp [hr], ?_, ?_⟩
      · intro x hx
        rcases List.mem_cons.1 hx with hx | hx
        · subst hx; exact ⟨h1, h2⟩
        · exact hall x hx
      · simp [hl, List.reverse_cons, List.append_assoc]

theorem goExt_eq_bson_iff (p : String) :
    goExt p = ".bson" ↔ ".bson".data <:+ p.data := by
  constructor
  · intro h
    have hd : goExtRev [] p.data.reverse = ['.', 'b', 's', 'o', 'n'] :=
      congrArg String.data h
    obtain ⟨r1, r2, hr, -, hl⟩ := goExtRev_dot [] hd
    have hr1 : r1 = ['n', 'o', 's', 'b'] := by
      have hrev : r1.reverse = ['b', 's', 'o', 'n'] := by simpa using hl.symm
      calc r1 = r1.reverse.reverse := (List.reverse_reverse r1).symm
        _ = ['n', 'o', 's', 'b'] := by rw [hrev]; rfl
    refine ⟨r2.reverse, ?_⟩
    have hp : p.data.reverse = ['n', 'o', 's', 'b'] ++ '.' :: r2 := by rw [hr, hr1]
    have := congrArg List.reverse hp
    simp only [List.reverse_reverse] at this
    rw [this]
    simp [List.reverse_append]
  · rintro ⟨t, ht⟩
    have hrev : p.data.reverse = 'n' :: 'o' :: 's' :: 'b' :: '.' :: t.reverse := by
      rw [← ht, List.reverse_append]
      rfl
    apply String.ext
    show goExtRev [] p.data.reverse = ".bson".data
    rw [hrev]
    rfl

theorem dumpStats_eq (tree : List FileNode) :
    dumpStats tree =
      ((tree.filter fun f => !f.isDir && goExt f.relPath == ".bson").length,
       ((tree.filter fun f => !f.isDir && goExt f.relPath == ".bson").map
         fun f => f.content.length).sum) := by
  induction tree with
  | nil => rfl
  | cons f rest ih =>
    rw [dumpStats]
    cases hcond : (!f.isDir && goExt f.relPath == ".bson") <;>
      simp [List.filter_cons, hcond, ih, Nat.add_comm]

/-- Claim C10: the reported collection count is the number of regular
files whose name ends in `.bson`, the reported total size is the sum of
exactly those files' sizes, while the archive holds one entry per
regular file of the tree, so the archive's entry count is at least the
collection count and can strictly exceed it. -/
theorem c10_bson_statistics (tree : List FileNode) :
    (dumpStats tree).1 =
      (tree.filter fun f => !f.isDir && decide (".bson".data <:+ f.relPath.data)).length ∧
    (dumpStats tree).2 =
      ((tree.filter fun f => !f.isDir && decide (".bson".data <:+ f.relPath.data)).map
        fun f => f.content.length).sum ∧
    (tree.filter fun f => !f.isDir && decide (".bson".data <:+ f.relPath.data)).length ≤
      (compressFile tree).length ∧
    ∃ tree2 : List FileNode,
      (tree2.filter fun f => !f.isDir && decide (".bson".data <:+ f.relPath.data)).length <
        (compressFile tree2).length := by
  have hpred : ∀ f : FileNode, (!f.isDir && goExt f.relPath == ".bson") =
      (!f.isDir && decide (".bson".data <:+ f.relPath.data)) := by
    intro f
    have : (goExt f.relPath == ".bson") = decide (".bson".data <:+ f.relPath.data) := by
      by_cases h : goExt f.relPath = ".bson"
      · simp [h, (goExt_eq_bson_iff f.relPath).1 h]
      · have hs : ¬(".bson".data <:+ f.relPath.data) :=
          fun hs => h ((goExt_eq_bson_iff f.relPath).2 hs)
        rw [beq_eq_false_iff_ne.mpr h, decide_eq_false hs]
    rw [this]
  have hfilter : (tree.filter fun f => !f.isDir && goExt f.relPath == ".bson") =
      tree.filter fun f => !f.isDir && decide (".bson".data <:+ f.relPath.data) :=
    List.filter_congr fun f _ => hpred f
  refine ⟨?_, ?_, ?_, ?_⟩
  · rw [dumpStats_eq, ← hfilter]
  · rw [dumpStats_eq, ← hfilter]
  · rw [compressFile_eq, List.length_map]
    exact (List.monotone_filter_right tree fun f hf => by
      simp only [Bool.and_eq_true] at hf ⊢; exact hf.1).length_le
  · exact ⟨[⟨"users.metadata.json", false, [0]⟩], by decide⟩

/-! ### Claim C2 -/

theorem formatTimestamp_data (t : DateTime) :
    (formatTimestamp t).data =
      [Nat.digitChar (t.year / 1000 % 10), Nat.digitChar (t.year / 100 % 10),
       Nat.digitChar (t.year / 10 % 10), Nat.digitChar (t.year % 10), '-',
       Nat.digitChar (t.month / 10 % 10), Nat.digitChar (t.month % 10), '-',
       Nat.digitChar (t.day / 10 % 10), Nat.digitChar (t.day % 10), 'T',
       Nat.digitChar (t.hour / 10 % 10), Nat.digitChar (t.hour % 10), '-',
       Nat.digitChar (t.minute / 10 % 10), Nat.digitChar (t.minute % 10), '-',
       Nat.digitChar (t.second / 10 % 10), Nat.digitChar (t.second % 10), 'Z'] := rfl

theorem formatDate_data (t : DateTime) :
    (formatDate t).data =
      [Nat.digitChar (t.year / 1000 % 10), Nat.digitChar (t.year / 100 % 10),
       Nat.digitChar (t.year / 10 % 10), Nat.digitChar (t.year % 10), '-',
       Nat.digitChar (t.month / 10 % 10), Nat.digitChar (t.month % 10), '-',
       Nat.digitChar (t.day / 10 % 10), Nat.digitChar (t.day % 10)] := rfl

theorem formatTimestamp_data_length (t : DateTime) :
    (formatTimestamp t).data.length = 20 := by
  rw [formatTimestamp_data]; rfl

theorem formatDate_data_length (t : DateTime) :
    (formatDate t).data.length = 10 := by
  rw [formatDate_data]; rfl

theorem digitChar_inj :
    ∀ a, a < 10 → ∀ b, b < 10 → Nat.digitChar a = Nat.digitChar b → a = b := by
  decide

theorem two_digit_inj {a b : Nat} (ha : a < 100) (hb : b < 100)
    (h1 : Nat.digitChar (a / 10 % 10) = Nat.digitChar (b / 10 % 10))
    (h0 : Nat.digitChar (a % 10) = Nat.digitChar (b % 10)) : a = b := by
  have e1 := digitChar_inj _ (by omega) _ (by omega) h1
  have e0 := digitChar_inj _ (by omega) _ (by omega) h0
  omega

theorem four_digit_inj {a b : Nat} (ha : a < 10000) (hb : b < 10000)
    (h3 : Nat.digitChar (a / 1000 % 10) = Nat.digitChar (b / 1000 % 10))
    (h2 : Nat.digitChar (a / 100 % 10) = Nat.digitChar (b / 100 % 10))
    (h1 : Nat.digitChar (a / 10 % 10) = Nat.digitChar (b / 10 % 10))
    (h0 : Nat.digitChar (a % 10) = Nat.digitChar (b % 10)) : a = b := by
  have e3 := digitChar_inj _ (by omega) _ (by omega) h3
  have e2 := digitChar_inj _ (by omega) _ (by omega) h2
  have e1 := digitChar_inj _ (by omega) _ (by omega) h1
  have e0 := digitChar_inj _ (by omega) _ (by omega) h0
  omega

theorem formatTimestamp_inj {t1 t2 : DateTime} (hv1 : t1.Valid) (hv2 : t2.Valid)
    (h : formatTimestamp t1 = formatTimestamp t2) : t1 = t2 := by
  obtain ⟨y1, mo1, d1, hr1, mi1, s1⟩ := t1
  obtain ⟨y2, mo2, d2, hr2, mi2, s2⟩ := t2
  obtain ⟨hvy1, hvmo1, hvd1, hvh1, hvmi1, hvs1⟩ := hv1
  obtain ⟨hvy2, hvmo2, hvd2, hvh2, hvmi2, hvs2⟩ := hv2
  have hdata := congrArg String.data h
  rw [formatTimestamp_data, formatTimestamp_data] at hdata
  simp only [List.cons.injEq, and_true, true_and] at hdata
  obtain ⟨hy3, hy2, hy1, hy0, hmo1, hmo0, hd1, hd0, hh1, hh0, hmi1, hmi0, hs1, hs0⟩ := hdata
  simp only [DateTime.mk.injEq]
  exact ⟨four_digit_inj hvy1 hvy2 hy3 hy2 hy1 hy0,
    two_digit_inj hvmo1 hvmo2 hmo1 hmo0,
    two_digit_inj hvd1 hvd2 hd1 hd0,
    two_digit_inj hvh1 hvh2 hh1 hh0,
    two_digit_inj hvmi1 hvmi2 hmi1 hmi0,
    two_digit_inj hvs1 hvs2 hs1 hs0⟩

theorem slash_split_inj :
    ∀ (a b x y : List Char), '/' ∉ a → '/' ∉ b →
      a ++ '/' :: x = b ++ '/' :: y → a = b ∧ x = y := by
  intro a
  induction a with
  | nil =>
    intro b x y ha hb h
    cases b with
    | nil => simpa using h
    | cons d bs =>
      simp only [List.nil_append, List.cons_append] at h
      obtain ⟨hd, -⟩ := List.cons.inj h
      exact absurd (by rw [hd]; exact List.mem_cons_self d bs) hb
  | cons c as ih =>
    intro b x y ha hb h
    cases b with
    | nil =>
      simp only [List.cons_append, List.nil_append] at h
      obtain ⟨hc, -⟩ := List.cons.inj h
      exact absurd (by rw [← hc]; exact List.mem_cons_self c as) ha
    | cons d bs =>
      simp only [List.cons_append] at h
      obtain ⟨hc, htail⟩ := List.cons.inj h
      have ha2 : '/' ∉ as := fun hm => ha (List.mem_cons_of_mem _ hm)
      have hb2 : '/' ∉ bs := fun hm => hb (List.mem_cons_of_mem _ hm)
      obtain ⟨hab, hxy⟩ := ih bs x y ha2 hb2 htail
      exact ⟨by rw [hc, hab], hxy⟩

theorem dumpS3Key_data (cfg : DumperConfig) (now : Clock) :
    (dumpS3Key cfg now).data =
      (cfg.GetEnvironment "default").data ++
        ('/' :: ((formatDate now.localTime).data ++
          ('/' :: ((cfg.GetDatabase "all-databases").data ++
            ('-' :: ((cfg.GetEnvironment "default").data ++
              ('-' :: ((formatTimestamp now.utc).data ++
                ['.', 'z', 'i', 'p'])))))))) := by
  simp [dumpS3Key, GenerateBackupFilename, String.data_append, List.append_assoc]

/-- Claim C2, counterexample: the key's date segment is produced by a
second clock reading in the process's local zone, not from the UTC
timestamp.  With UTC instant 2023-04-15T23:30:00Z and a local zone at
UTC+14 (local date 2023-04-16) the generated key differs from the
claimed `{environment}/{date-of-timestamp}/...` form, and two runs with
the same (environment, database, UTC timestamp) but different local
dates produce different keys, so the key is not a function of those
three components. -/
theorem c2_counterexample :
    dumpS3Key ⟨"mongodb://h", "orders", "staging", "e", "r", "b", "a", "s", "/tmp"⟩
        ⟨⟨2023, 4, 15, 23, 30, 0⟩, ⟨2023, 4, 16, 13, 30, 0⟩⟩ ≠
      specClaimedKey "staging" "orders" ⟨2023, 4, 15, 23, 30, 0⟩ ∧
    dumpS3Key ⟨"mongodb://h", "orders", "staging", "e", "r", "b", "a", "s", "/tmp"⟩
        ⟨⟨2023, 4, 15, 23, 30, 0⟩, ⟨2023, 4, 16, 13, 30, 0⟩⟩ ≠
      dumpS3Key ⟨"mongodb://h", "orders", "staging", "e", "r", "b", "a", "s", "/tmp"⟩
        ⟨⟨2023, 4, 15, 23, 30, 0⟩, ⟨2023, 4, 15, 23, 30, 0⟩⟩ := by
  constructor
  · decide
  · decide

/-- Claim C2 (amended): the remote key has the form
`{environment}/{localDate}/{database}-{environment}-{timestamp}.zip`,
where `timestamp` is the UTC wall clock formatted as
`YYYY-MM-DDTHH-MM-SSZ` at one-second resolution but the date segment
comes from a second clock reading in the local zone (it agrees with the
timestamp's date only when the local date equals the UTC date); the key
is a deterministic function of (environment, database, UTC timestamp,
local date) and, whenever the environment contains no `/` and the
timestamp fields are in range, it parses back unambiguously into
environment, database and timestamp. -/
theorem c2_key_structure_and_parse :
    (∀ (cfg : DumperConfig) (now : Clock),
      dumpS3Key cfg now =
        cfg.GetEnvironment "default" ++ "/" ++ formatDate now.localTime ++ "/" ++
          cfg.GetDatabase "all-databases" ++ "-" ++ cfg.GetEnvironment "default" ++ "-" ++
          formatTimestamp now.utc ++ ".zip") ∧
    (∀ (cfg1 cfg2 : DumperConfig) (now1 now2 : Clock),
      '/' ∉ (cfg1.GetEnvironment "default").data →
      '/' ∉ (cfg2.GetEnvironment "default").data →
      now1.utc.Valid → now2.utc.Valid →
      dumpS3Key cfg1 now1 = dumpS3Key cfg2 now2 →
      cfg1.GetEnvironment "default" = cfg2.GetEnvironment "default" ∧
        cfg1.GetDatabase "all-databases" = cfg2.GetDatabase "all-databases" ∧
        now1.utc = now2.utc) := by
  constructor
  · intro cfg now
    apply String.ext
    simp [dumpS3Key, GenerateBackupFilename, String.data_append, List.append_assoc]
  · intro cfg1 cfg2 now1 now2 he1 he2 hv1 hv2 hkey
    have hd := congrArg String.data hkey
    rw [dumpS3Key_data, dumpS3Key_data] at hd
    obtain ⟨henv, hrest⟩ := slash_split_inj _ _ _ _ he1 he2 hd
    have henvS : cfg1.GetEnvironment "default" = cfg2.GetEnvironment "default" :=
      String.ext henv
    obtain ⟨-, hrest2⟩ := List.append_inj hrest
      (by rw [formatDate_data_length, formatDate_data_length])
    obtain ⟨-, hrest3⟩ := List.cons.inj hrest2
    rw [← henv] at hrest3
    obtain ⟨hdb, hsuf⟩ := List.append_inj' hrest3 (by
      simp only [List.length_cons, List.length_append,
        formatTimestamp_data_length])
    obtain ⟨-, hsuf2⟩ := List.cons.inj hsuf
    have hsuf3 := List.append_cancel_left hsuf2
    obtain ⟨-, hsuf4⟩ := List.cons.inj hsuf3
    obtain ⟨hts, -⟩ := List.append_inj hsuf4
      (by rw [formatTimestamp_data_length, formatTimestamp_data_length])
    exact ⟨henvS, String.ext hdb, formatTimestamp_inj hv1 hv2 (String.ext hts)⟩

/-- Claim C2, witness: the amended parse-back statement applied at a
concrete configuration and clock. -/
theorem c2_witness :
    DumperConfig.GetEnvironment
        ⟨"mongodb://h", "orders", "staging", "e", "r", "b", "a", "s", "/tmp"⟩ "default" =
      DumperConfig.GetEnvironment
        ⟨"mongodb://h", "orders", "staging", "e", "r", "b", "a", "s", "/tmp"⟩ "default" ∧
    DumperConfig.GetDatabase
        ⟨"mongodb://h", "orders", "staging", "e", "r", "b", "a", "s", "/tmp"⟩ "all-databases" =
      DumperConfig.GetDatabase
        ⟨"mongodb://h", "orders", "staging", "e", "r", "b", "a", "s", "/tmp"⟩ "all-databases" ∧
    (Clock.mk ⟨2023, 4, 15, 12, 0, 0⟩ ⟨2023, 4, 15, 14, 0, 0⟩).utc =
      (Clock.mk ⟨2023, 4, 15, 12, 0, 0⟩ ⟨2023, 4, 15, 14, 0, 0⟩).utc :=
  c2_key_structure_and_parse.2
    ⟨"mongodb://h", "orders", "staging", "e", "r", "b", "a", "s", "/tmp"⟩
    ⟨"mongodb://h", "orders", "staging", "e", "r", "b", "a", "s", "/tmp"⟩
    ⟨⟨2023, 4, 15, 12, 0, 0⟩, ⟨2023, 4, 15, 14, 0, 0⟩⟩
    ⟨⟨2023, 4, 15, 12, 0, 0⟩, ⟨2023, 4, 15, 14, 0, 0⟩⟩
    (by decide) (by decide) (by decide) (by decide) rfl
